import Mathlib

/-!
Verification of the downloader-pro media-resolution pipeline.

The TypeScript source is shallowly embedded in Lean:
* pure string/regex manipulation becomes executable functions on `List Char`;
* `JSON.parse` is modelled as a parameter `String → Option Json` (`none` =
  the parse throws), with a concrete executable parser `jsonParse` used for
  closed instances;
* network and file-system effects are modelled by explicit `World`/state
  records and effect traces: a handler maps a request and a world to a
  response, a list of performed effects, and the updated file store.

Directory creation (`ensureDownloadsDir`) and the md5 digest are external
utility calls; the digest is passed in as `World.hash`, and directory
creation is not an effect of interest to any claim.
-/

set_option maxRecDepth 10000

/-! ## Generic character-list utilities (JS string/regex primitives) -/

/-- JS `String.prototype.includes` on character lists (empty needle ⇒ true). -/
def containsSub (needle : List Char) : List Char → Bool
  | [] => needle.isEmpty
  | c :: rest => needle.isPrefixOf (c :: rest) || containsSub needle rest

/-- JS `includes` on `String`. -/
def strContains (needle hay : String) : Bool := containsSub needle.data hay.data

/-- Characters before the first occurrence of `pat` (none if `pat` absent). -/
def beforeFirst (pat : List Char) : List Char → Option (List Char)
  | [] => if pat.isEmpty then some [] else none
  | c :: rest =>
    if pat.isPrefixOf (c :: rest) then some []
    else (beforeFirst pat rest).map (c :: ·)

/-- Case-insensitive prefix test (models regex literals under the `i` flag). -/
def ciPrefixOf (pat s : List Char) : Bool :=
  (pat.map Char.toLower).isPrefixOf (s.map Char.toLower)

/-- Characters before the first case-insensitive occurrence of `pat`. -/
def beforeFirstCi (pat : List Char) : List Char → Option (List Char)
  | [] => if pat.isEmpty then some [] else none
  | c :: rest =>
    if ciPrefixOf pat (c :: rest) then some []
    else (beforeFirstCi pat rest).map (c :: ·)

/-- All start indices at which `pat` occurs in `s` (ascending). -/
def occIdx (pat s : List Char) : List Nat :=
  (List.range (s.length + 1)).filter (fun i => pat.isPrefixOf (s.drop i))

/-- All start indices of case-insensitive occurrences of `pat` (ascending). -/
def occIdxCi (pat s : List Char) : List Nat :=
  (List.range (s.length + 1)).filter (fun i => ciPrefixOf pat (s.drop i))

/-- True when no character blocks the regex `.` metacharacter (which does not
match line terminators in JS). -/
def noNewline (l : List Char) : Bool :=
  l.all (fun c => c != '\n' && c != '\r' && c != '\u2028' && c != '\u2029')

/-- The leading run of decimal digits of the first digit group of `s`
(JS `s.match(/\d+/)` followed by `parseInt`). -/
def firstDigits (s : String) : Option Nat :=
  let ds := (s.data.dropWhile (fun c => !c.isDigit)).takeWhile Char.isDigit
  if ds.isEmpty then none
  else some (ds.foldl (fun acc c => acc * 10 + (c.toNat - 48)) 0)

/-- Strip every backslash (JS `str.replace(/\\/g, "")`). -/
def stripBS (l : List Char) : List Char := l.filter (fun c => c != '\\')

/-! ## `extractYouTubeVideoId` (src/app/actions.ts lines 11-15, identical in
src/app/api/proxy/route.ts lines 199-204)

The source regex is
`^.*((youtu.be\/)|(v\/)|(\/u\/\w\/)|(embed\/)|(watch\?))\??v?=?([^#&?]*).*`.
The leading greedy `.*` makes the engine pick the RIGHTMOST position at
which one of the five alternatives matches (everything after the
alternative is optional, so the remainder always succeeds); at that
position the alternatives are tried in their listed order.  Note the
unescaped dot in `youtu.be`, which matches any character. -/

/-- JS `\w`: word character. -/
def wordChar (c : Char) : Bool := c.isAlpha || c.isDigit || c == '_'

/-- Alternative `youtu.be/` (dot unescaped ⇒ wildcard) matches at the head. -/
def altYoutuBe : List Char → Bool
  | 'y' :: 'o' :: 'u' :: 't' :: 'u' :: _ :: 'b' :: 'e' :: '/' :: _ => true
  | _ => false

/-- Alternative `v/` matches at the head. -/
def altVSlash : List Char → Bool
  | 'v' :: '/' :: _ => true
  | _ => false

/-- Alternative `/u/\w/` matches at the head. -/
def altUSlash : List Char → Bool
  | '/' :: 'u' :: '/' :: c :: '/' :: _ => wordChar c
  | _ => false

/-- Alternative `embed/` matches at the head. -/
def altEmbed : List Char → Bool
  | 'e' :: 'm' :: 'b' :: 'e' :: 'd' :: '/' :: _ => true
  | _ => false

/-- Alternative `watch?` matches at the head. -/
def altWatch : List Char → Bool
  | 'w' :: 'a' :: 't' :: 'c' :: 'h' :: '?' :: _ => true
  | _ => false

/-- Length consumed by the first alternative (in the regex's listed order)
matching at the head of `s`, if any. -/
def altLen (s : List Char) : Option Nat :=
  if altYoutuBe s then some 9
  else if altVSlash s then some 2
  else if altUSlash s then some 5
  else if altEmbed s then some 6
  else if altWatch s then some 6
  else none

/-- Suffix following the rightmost alternative occurrence (the greedy `^.*`
backtracks from the longest prefix, so the last position wins). -/
def lastAltSuffix : List Char → Option (List Char)
  | [] => none
  | c :: rest =>
    match lastAltSuffix rest with
    | some r => some r
    | none => (altLen (c :: rest)).map (fun n => (c :: rest).drop n)

/-- Capture group 7 of the source regex: after the alternative, consume an
optional `?`, an optional `v`, an optional `=`, then capture `[^#&?]*`. -/
def captureSeven (s : List Char) : Option (List Char) :=
  (lastAltSuffix s).map (fun r =>
    let r1 := if r.head? == some '?' then r.tail else r
    let r2 := if r1.head? == some 'v' then r1.tail else r1
    let r3 := if r2.head? == some '=' then r2.tail else r2
    r3.takeWhile (fun c => !(c == '#' || c == '&' || c == '?')))

/-- `extractYouTubeVideoId` (actions.ts lines 11-15): return capture 7 only
when it is exactly 11 characters long, else null. -/
def extractYouTubeVideoId (url : String) : Option String :=
  match captureSeven url.data with
  | some cs => if cs.length = 11 then some (String.mk cs) else none
  | none => none

/-! ## `downloadContent` (src/app/actions.ts lines 23-44) -/

/-- The three platform handlers that `downloadContent` can dispatch to. -/
inductive Handler where
  | youtube
  | instagram
  | facebook
deriving DecidableEq

/-- A structured failure result `{success: false, message}`. -/
structure DCFail where
  success : Bool
  message : String
deriving DecidableEq

/-- `downloadContent` up to the platform dispatch: either a failure result
produced without invoking any handler (`Sum.inl`), or the handler that the
URL's substring classification selects (`Sum.inr`). -/
def downloadContent (url : String) : Sum DCFail Handler :=
  if url == "" then .inl ⟨false, "Please provide a URL"⟩
  else if strContains "youtube.com" url || strContains "youtu.be" url then .inr .youtube
  else if strContains "instagram.com" url then .inr .instagram
  else if strContains "facebook.com" url || strContains "fb.com" url then .inr .facebook
  else .inl ⟨false, "Unsupported URL. Please try a YouTube, Instagram, or Facebook URL."⟩

/-! ## JSON values and a concrete executable parser

`JSON.parse` results are modelled by `Json`; the extraction functions take
the parser as a parameter `String → Option Json` (`none` models a thrown
`SyntaxError`).  `jsonParse` below is a concrete executable parser used to
instantiate closed statements. -/

/-- JSON values (JS objects produced by `JSON.parse`). -/
inductive Json where
  | null
  | bool (b : Bool)
  | num (n : Int)
  | str (s : String)
  | arr (elems : List Json)
  | obj (fields : List (String × Json))

/-- Property access: `j.k` is `undefined` (`none`) unless `j` is an object
with field `k`. -/
def Json.get? : Json → String → Option Json
  | .obj fs, k => (fs.find? (fun f => f.1 == k)).map (·.2)
  | _, _ => none

/-- Index access `j[i]` on arrays. -/
def Json.idx? : Json → Nat → Option Json
  | .arr xs, i => xs.get? i
  | _, _ => none

/-- Whether the value is JS `null`. -/
def Json.isNull : Json → Bool
  | .null => true
  | _ => false

/-- JS truthiness of a JSON value. -/
def jsTruthy : Json → Bool
  | .null => false
  | .bool b => b
  | .num n => n != 0
  | .str s => !s.isEmpty
  | .arr _ => true
  | .obj _ => true

/-- JS truthiness of a possibly-`undefined` value. -/
def optTruthy : Option Json → Bool
  | none => false
  | some j => jsTruthy j

/-- Strict equality `=== false` against a JSON value. -/
def isFalseJ : Option Json → Bool
  | some (.bool false) => true
  | _ => false

/-- Strict equality `=== true` against a JSON value. -/
def isTrueJ : Option Json → Bool
  | some (.bool true) => true
  | _ => false

/-- The string payload of a value that the JS code returns as a media URL
(`none` for `undefined`/`null`/non-strings, which the callers all treat as
absent via truthiness checks). -/
def asStr : Option Json → Option String
  | some (.str s) => some s
  | _ => none

/-- JS `x || y` over possibly-undefined JSON values. -/
def jsOrJ (x y : Option Json) : Option Json :=
  if optTruthy x then x else y

/-- Whitespace skipped by `JSON.parse`. -/
def skipWs (s : List Char) : List Char :=
  s.dropWhile (fun c => c == ' ' || c == '\n' || c == '\t' || c == '\r')

/-- Parse the rest of a JSON string literal (after the opening quote),
handling the common escapes. -/
def parseStrAux : List Char → Option (List Char × List Char)
  | [] => none
  | '"' :: r => some ([], r)
  | '\\' :: e :: r =>
    (match e with
     | '"' => some '"'
     | '\\' => some '\\'
     | '/' => some '/'
     | 'n' => some '\n'
     | 't' => some '\t'
     | 'r' => some '\r'
     | _ => none).bind (fun c =>
       (parseStrAux r).map (fun (p : List Char × List Char) => (c :: p.1, p.2)))
  | c :: r =>
    if c == '\\' then none
    else (parseStrAux r).map (fun p => (c :: p.1, p.2))

/-- Parse an integer literal (optionally negative). -/
def parseNum (s : List Char) : Option (Int × List Char) :=
  match s with
  | '-' :: r =>
    let ds := r.takeWhile Char.isDigit
    if ds.isEmpty then none
    else some (-(ds.foldl (fun a c => a * 10 + ((c.toNat : Int) - 48)) 0), r.drop ds.length)
  | _ =>
    let ds := s.takeWhile Char.isDigit
    if ds.isEmpty then none
    else some (ds.foldl (fun a c => a * 10 + ((c.toNat : Int) - 48)) 0, s.drop ds.length)

mutual

/-- Fuel-indexed recursive-descent JSON value parser. -/
def parseVal : Nat → List Char → Option (Json × List Char)
  | 0, _ => none
  | fu + 1, s =>
    match skipWs s with
    | '"' :: r => (parseStrAux r).map (fun p => (.str (String.mk p.1), p.2))
    | 't' :: 'r' :: 'u' :: 'e' :: r => some (.bool true, r)
    | 'f' :: 'a' :: 'l' :: 's' :: 'e' :: r => some (.bool false, r)
    | 'n' :: 'u' :: 'l' :: 'l' :: r => some (.null, r)
    | '[' :: r =>
      (match skipWs r with
       | ']' :: r2 => some (.arr [], r2)
       | r2 => (parseArrElems fu r2).map (fun p => (.arr p.1, p.2)))
    | '\x7b' :: r =>
      (match skipWs r with
       | '\x7d' :: r2 => some (.obj [], r2)
       | r2 => (parseObjFields fu r2).map (fun p => (.obj p.1, p.2)))
    | r => (parseNum r).map (fun p => (.num p.1, p.2))

/-- Comma-separated array elements up to the closing bracket. -/
def parseArrElems : Nat → List Char → Option (List Json × List Char)
  | 0, _ => none
  | fu + 1, s =>
    (parseVal fu s).bind (fun p =>
      match skipWs p.2 with
      | ',' :: r => (parseArrElems fu r).map (fun q => (p.1 :: q.1, q.2))
      | ']' :: r => some ([p.1], r)
      | _ => none)

/-- Comma-separated `"key": value` fields up to the closing brace. -/
def parseObjFields : Nat → List Char → Option (List (String × Json) × List Char)
  | 0, _ => none
  | fu + 1, s =>
    match skipWs s with
    | '"' :: r =>
      (parseStrAux r).bind (fun pk =>
        match skipWs pk.2 with
        | ':' :: r2 =>
          (parseVal fu r2).bind (fun pv =>
            match skipWs pv.2 with
            | ',' :: r3 => (parseObjFields fu r3).map (fun q =>
                ((String.mk pk.1, pv.1) :: q.1, q.2))
            | '\x7d' :: r3 => some ([(String.mk pk.1, pv.1)], r3)
            | _ => none)
        | _ => none)
    | _ => none

end

/-- A concrete executable model of `JSON.parse`: parse a complete value and
require only trailing whitespace; `none` models the thrown `SyntaxError`. -/
def jsonParse (s : String) : Option Json :=
  match parseVal (s.data.length + 1) s.data with
  | some (j, rest) => if (skipWs rest).isEmpty then some j else none
  | none => none

/-! ## Instagram extraction (src/app/api/proxy/route.ts lines 26-110)

`extractInstagramMediaUrl` fetches the page and then runs two extraction
steps over the HTML:
1. the `window._sharedData` script block — its `JSON.parse` is guarded only
   by the function-wide `try`, so a parse failure (or a `null` payload,
   whose plain `.entry_data` access throws a `TypeError`) jumps to the
   outer `catch` and returns `null` without trying step 2;
2. the JSON-LD script block — wrapped in its own inner `try/catch`, so its
   failures fall through to the final `return null`.
The network fetch is factored out: the functions below take the fetched
HTML as input. -/

/-- Regex capture of `pre(.+?)post` at the leftmost position with a
non-empty newline-free capture (JS `.` does not cross line terminators;
positions whose capture is invalid are skipped, as the engine then retries
at later starts). -/
def scanCapture (pre post : List Char) : List Char → Option (List Char)
  | [] => none
  | c :: rest =>
    if pre.isPrefixOf (c :: rest) then
      match beforeFirst post ((c :: rest).drop pre.length) with
      | some cap =>
        if !cap.isEmpty && noNewline cap then some cap
        else scanCapture pre post rest
      | none => scanCapture pre post rest
    else scanCapture pre post rest

/-- Capture of `/<script type="text\/javascript">window\._sharedData = (.+?);<\/script>/`. -/
def sharedCapture (s : List Char) : Option (List Char) :=
  scanCapture "<script type=\"text/javascript\">window._sharedData = ".data ";</script>".data s

/-- Capture of `/<script type="application\/ld\+json">(.+?)<\/script>/`. -/
def ldCapture (s : List Char) : Option (List Char) :=
  scanCapture "<script type=\"application/ld+json\">".data "</script>".data s

/-- Outcome of one extraction step: an explicit `return` (possibly of
`undefined`), a fall-through to the next step, or a thrown error reaching
the function-wide `catch`. -/
inductive StepOut where
  | ret (v : Option String)
  | fall
  | threw
deriving DecidableEq

/-- The post/profile checks applied to the parsed `window._sharedData`
payload (route.ts lines 54-81). -/
def sharedNav (j : Json) (ty : String) : StepOut :=
  let media := ((((j.get? "entry_data").bind (·.get? "PostPage")).bind
    (·.idx? 0)).bind (·.get? "graphql")).bind (·.get? "shortcode_media")
  let postPart : StepOut :=
    match media with
    | some m =>
      if jsTruthy m then
        if ty == "post" && isFalseJ (m.get? "is_video") then
          .ret (asStr (m.get? "display_url"))
        else if (ty == "reel" || ty == "post") && isTrueJ (m.get? "is_video") then
          .ret (asStr (m.get? "video_url"))
        else .fall
      else .fall
    | none => .fall
  match postPart with
  | .ret v => .ret v
  | .threw => .threw
  | .fall =>
    if ty == "profile" then
      let pd := ((((j.get? "entry_data").bind (·.get? "ProfilePage")).bind
        (·.idx? 0)).bind (·.get? "graphql")).bind (·.get? "user")
      match pd with
      | some p =>
        if jsTruthy p then
          .ret (asStr (jsOrJ (p.get? "profile_pic_url_hd") (p.get? "profile_pic_url")))
        else .fall
      | none => .fall
    else .fall

/-- Step 1 (`window._sharedData`, route.ts lines 47-82).  A `JSON.parse`
failure, or a `null` payload (whose `.entry_data` access throws), escapes
to the function-wide `catch`. -/
def sharedStep (parse : String → Option Json) (html : String) (ty : String) : StepOut :=
  match sharedCapture html.data with
  | none => .fall
  | some cap =>
    match parse (String.mk cap) with
    | none => .threw
    | some j => if j.isNull then .threw else sharedNav j ty

/-- Step 2 (JSON-LD, route.ts lines 85-103); its `try/catch` turns every
error into a fall-through. -/
def ldStep (parse : String → Option Json) (html : String) : StepOut :=
  match ldCapture html.data with
  | none => .fall
  | some cap =>
    match parse (String.mk cap) with
    | none => .fall
    | some j =>
      if j.isNull then .fall
      else if optTruthy (j.get? "video") then
        .ret (asStr ((j.get? "video").bind (·.get? "contentUrl")))
      else if optTruthy (j.get? "image") then
        match j.get? "image" with
        | some (.arr []) => .fall
        | some (.arr (e :: _)) =>
          if e.isNull then .fall else .ret (asStr (e.get? "url"))
        | some other => .ret (asStr (other.get? "url"))
        | none => .fall
      else .fall

/-- The value an extraction step's `return` produces at the call site. -/
def stepValue : StepOut → Option String
  | .ret v => v
  | .fall => none
  | .threw => none

/-- `extractInstagramMediaUrl` (route.ts lines 26-110) as a function of the
fetched page HTML and the JSON parser. -/
def extractInstagramMediaUrl (parse : String → Option Json) (html : String)
    (ty : String) : Option String :=
  match sharedStep parse html ty with
  | .ret v => v
  | .threw => none
  | .fall => stepValue (ldStep parse html)

/-- Modelled from the spec (claim C3): the `og:image` meta-tag scrape that
the spec describes as the third fallback step.  No such step exists in the
source; this definition exists only to state the counterexample's premise
that the input HTML does contain a valid `og:image` tag. -/
def specOgImage (html : String) : Option String :=
  (scanCapture "<meta property=\"og:image\" content=\"".data "\"".data html.data).map String.mk

/-- Concrete page for C3: a valid `og:image` meta tag and neither a
`window._sharedData` nor a JSON-LD script block. -/
def igHtml3 : String :=
  "<html><head><meta property=\"og:image\" content=\"https://cdn.example.com/pic.jpg\"/></head></html>"

/-- Concrete page for C5: a `window._sharedData` block whose payload `@@`
is malformed JSON, followed by a JSON-LD block carrying a video URL. -/
def igHtml5 : String :=
  "<script type=\"text/javascript\">window._sharedData = @@;</script><script type=\"application/ld+json\">\x7b\"video\":\x7b\"contentUrl\":\"https://v.example.com/a.mp4\"\x7d\x7d</script>"

/-! ## YouTube format selection (src/app/api/proxy/route.ts lines 273-349)

`ytdl-core` format objects are records; optional fields model absent
(`undefined`) JS properties, with JS truthiness (`0` and `""` falsy).  The
comparator's audio tie-break compares the raw JS value of
`a.hasAudio || a.audioQuality || a.audioBitrate` with `!==`, so those
chain values are modelled as JS values (`JSV`). -/

/-- A `ytdl-core` format object (the fields the route reads). -/
structure Fmt where
  itag : Nat
  height : Option Nat
  width : Option Nat
  fps : Option Nat
  qualityLabel : Option String
  quality : Option String
  hasVideo : Bool
  hasAudio : Bool
  audioQuality : Option String
  audioBitrate : Option Nat
  container : Option String
  mimeType : Option String
deriving DecidableEq

/-- JS truthiness of an optional numeric property. -/
def optNatTruthy : Option Nat → Bool
  | none => false
  | some n => n != 0

/-- JS truthiness of an optional string property. -/
def optStrTruthy : Option String → Bool
  | none => false
  | some s => !s.isEmpty

/-- The format filter (route.ts lines 273-281): any video indicator. -/
def isVideoFmt (f : Fmt) : Bool :=
  f.hasVideo || optStrTruthy f.qualityLabel ||
  (match f.quality with
   | some q => strContains "p" q
   | none => false) ||
  optNatTruthy f.height || optNatTruthy f.width || optNatTruthy f.fps

/-- The filtered list of formats carrying video content. -/
def videoFormats (l : List Fmt) : List Fmt := l.filter isVideoFmt

/-- The `format.quality` digit fallback of `getQualityNumber` and its final
`return 0` (route.ts lines 303-309). -/
def qualityFallback (f : Fmt) : Nat :=
  match f.quality with
  | some q =>
    if !q.isEmpty then
      match firstDigits q with
      | some n => n
      | none => 0
    else 0
  | none => 0

/-- `getQualityNumber` (route.ts lines 293-310): height if truthy, else the
first digit run of the quality label, else of the quality string, else 0. -/
def getQualityNumber (f : Fmt) : Nat :=
  if optNatTruthy f.height then f.height.getD 0
  else
    match f.qualityLabel with
    | some l =>
      if !l.isEmpty then
        match firstDigits l with
        | some n => n
        | none => qualityFallback f
      else qualityFallback f
    | none => qualityFallback f

/-- A JS value, as needed for the `!==` comparison of the audio chain. -/
inductive JSV where
  | b (x : Bool)
  | s (x : String)
  | n (x : Nat)
  | undef
deriving DecidableEq

/-- JS truthiness of a `JSV`. -/
def jsvTruthy : JSV → Bool
  | .b x => x
  | .s x => !x.isEmpty
  | .n x => x != 0
  | .undef => false

/-- JS `x || y` on raw values. -/
def jsOrV (x y : JSV) : JSV := if jsvTruthy x then x else y

/-- The JS value of an optional string property. -/
def optStrJSV : Option String → JSV
  | none => .undef
  | some s => .s s

/-- The JS value of an optional numeric property. -/
def optNatJSV : Option Nat → JSV
  | none => .undef
  | some n => .n n

/-- The raw value of `f.hasAudio || f.audioQuality || f.audioBitrate`
(route.ts lines 323-324). -/
def audioVal (f : Fmt) : JSV :=
  jsOrV (.b f.hasAudio) (jsOrV (optStrJSV f.audioQuality) (optNatJSV f.audioBitrate))

/-- The sort comparator (route.ts lines 312-335): descending quality
number; on a tie the `!==` comparison of the raw audio chain values with
the truthy side first; on a further tie prefer a truthy container. -/
def ytCmp (a b : Fmt) : Int :=
  let qa := getQualityNumber a
  let qb := getQualityNumber b
  if qa ≠ qb then (qb : Int) - (qa : Int)
  else
    let av := audioVal a
    let bv := audioVal b
    if av ≠ bv then (if jsvTruthy av then -1 else 1)
    else if optStrTruthy a.container && !optStrTruthy b.container then -1
    else if !optStrTruthy a.container && optStrTruthy b.container then 1
    else 0

/-- `a` sorts no later than `b` under the comparator. -/
def ytLeB (a b : Fmt) : Bool := decide (ytCmp a b ≤ 0)

/-- Insert into a list sorted by `le`. -/
def insertLe {α : Type} (le : α → α → Bool) (x : α) : List α → List α
  | [] => [x]
  | y :: ys => if le x y then x :: y :: ys else y :: insertLe le x ys

/-- Insertion sort by `le` (the model of `Array.prototype.sort` with the
comparator; all sorts agree on lists whose comparator is a total
preorder, which the theorems' hypotheses guarantee). -/
def sortLe {α : Type} (le : α → α → Bool) : List α → List α
  | [] => []
  | x :: xs => insertLe le x (sortLe le xs)

/-- Format selection (route.ts lines 284-349): an exact itag match when a
quality was requested, else the head of the comparator-sorted video
formats.  (`parseInt` of a non-numeric quality yields `NaN`, whose find
never matches — represented by `q = none`.) -/
def selectFormat (q : Option Nat) (l : List Fmt) : Option Fmt :=
  let vf := videoFormats l
  match q with
  | some n =>
    match vf.find? (fun f => f.itag == n) with
    | some f => some f
    | none => (sortLe ytLeB vf).head?
  | none => (sortLe ytLeB vf).head?

/-- The claim's selection ordering, as a lexicographic key comparison:
descending quality number, then audio carriers first, then formats with an
explicit container first. -/
def tripLe : Nat × Bool × Bool → Nat × Bool × Bool → Bool :=
  fun x y =>
    (y.1 < x.1) ||
    (x.1 == y.1 &&
      ((x.2.1 && !y.2.1) ||
        (x.2.1 == y.2.1 && ((x.2.2 && !y.2.2) || (x.2.2 == y.2.2)))))

/-- Whether the format carries audio (the truthiness of the audio chain). -/
def carriesAudio (f : Fmt) : Bool := jsvTruthy (audioVal f)

/-- Whether the format declares a (truthy) container. -/
def hasContainerB (f : Fmt) : Bool := optStrTruthy f.container

/-- The claim's lexicographic sort key of a format. -/
def lexKey (f : Fmt) : Nat × Bool × Bool :=
  (getQualityNumber f, carriesAudio f, hasContainerB f)

/-- `a` precedes-or-ties `b` in the ordering stated by the claim. -/
def specBetterEq (a b : Fmt) : Bool := tripLe (lexKey a) (lexKey b)

/-- A format with every optional field absent (helper for the concrete
variants of the claim's example). -/
def fmtBase : Fmt :=
  { itag := 0, height := none, width := none, fps := none,
    qualityLabel := none, quality := none, hasVideo := true,
    hasAudio := false, audioQuality := none, audioBitrate := none,
    container := none, mimeType := none }

/-- `{height: 720, hasAudio: false}`. -/
def fmt720noA : Fmt := { fmtBase with itag := 1, height := some 720 }

/-- `{height: 720, hasAudio: true}`. -/
def fmt720A : Fmt := { fmtBase with itag := 2, height := some 720, hasAudio := true }

/-- `{height: 480, hasAudio: true}`. -/
def fmt480A : Fmt := { fmtBase with itag := 3, height := some 480, hasAudio := true }

/-- The claim's example variant list. -/
def demoFmts : List Fmt := [fmt720noA, fmt720A, fmt480A]

/-! ## Regex capture helpers shared by the Facebook extraction code -/

/-- Regex `pre([^"]+)"` (literal prefix, then a non-empty capture of
non-quote characters closed by a quote), matched at the leftmost position
where the whole pattern succeeds. -/
def simpleCapture (pre s : List Char) : Option (List Char) :=
  (occIdx pre s).findSome? (fun i =>
    let r := s.drop (i + pre.length)
    let cap := r.takeWhile (fun c => c != '"')
    if !cap.isEmpty && ((r.drop cap.length).head? == some '"') then some cap
    else none)

/-- Case-insensitive variant of `simpleCapture` (regex `i` flag). -/
def simpleCaptureCi (pre s : List Char) : Option (List Char) :=
  (occIdxCi pre s).findSome? (fun i =>
    let r := s.drop (i + pre.length)
    let cap := r.takeWhile (fun c => c != '"')
    if !cap.isEmpty && ((r.drop cap.length).head? == some '"') then some cap
    else none)

/-! ## The proxy route handler (src/app/api/proxy/route.ts lines 227-592)

External effects are supplied by a `World`:
* `hash` — the md5 digest used for cache file names (an external crypto
  call, so passed in);
* `files` — the names present in the downloads directory;
* `mediaFetchOk` — whether fetching-and-writing a media URL succeeds;
* `pageHtml`/`igHtml` — the HTML returned by a page fetch (`none` = the
  fetch fails or returns `!ok`);
* `jparse` — the JSON parser used by the Instagram extraction;
* `ytValid`, `ytInfo`, `ytStreamOk` — `ytdl.validateURL`,
  `ytdl.getBasicInfo` (with its error message), and whether the piped
  download stream finishes.
The effect trace records upstream media fetches, page fetches, stream
downloads and file writes; directory housekeeping is not traced. -/

/-- The query parameters of a proxy request. -/
structure Req where
  url : Option String
  ty : Option String
  quality : Option String
  media_url : Option String

/-- `ytdl.getBasicInfo` results (the fields the route reads). -/
structure YtInfo where
  title : String
  thumb : String
  formats : List Fmt

/-- The ambient world supplying the route's external effects. -/
structure World where
  hash : String → String
  files : List String
  mediaFetchOk : String → Bool
  pageHtml : String → Option String
  igHtml : String → Option String
  jparse : String → Option Json
  ytValid : String → Bool
  ytInfo : String → Except String YtInfo
  ytStreamOk : String → Bool

/-- Externally visible effects of one request. -/
inductive Eff where
  | fetchMedia (u : String)
  | fetchPage (u : String)
  | ytStream (u : String)
  | writeFile (name : String)
deriving DecidableEq

/-- Route responses (the JSON success shape is reduced to the fields the
claims mention). -/
inductive Resp where
  | errJson (status : Nat) (msg : String)
  | okJson (downloadUrl fileName contentType : String)
  | redirect (u : String)
deriving DecidableEq

/-- Record a written file in the downloads directory. -/
def addFile (name : String) (files : List String) : List String :=
  if files.contains name then files else name :: files

/-- The switch branches of the route's `switch (type)`. -/
inductive Branch where
  | youtube
  | igMedia
  | igPostX
  | igProfileX
  | facebook
  | unsupported
deriving DecidableEq

/-- The ordered case labels of the switch (route.ts lines 253-573).  The
first `case "reel": case "post": case "profile":` group shares one block;
the later duplicate `case "post":`/`case "profile":` labels map to their
own blocks but can never be selected, because a JS switch runs the first
matching label. -/
def switchCases : List (String × Branch) :=
  [("youtube", .youtube), ("reel", .igMedia), ("post", .igMedia),
   ("profile", .igMedia), ("post", .igPostX), ("profile", .igProfileX),
   ("facebook", .facebook)]

/-- JS switch dispatch: first case label equal to the discriminant. -/
def switchBranch (ty : String) : Branch :=
  match switchCases.find? (fun c => c.1 == ty) with
  | some c => c.2
  | none => .unsupported

/-- JS `parseInt` on a quality string: leading whitespace, an optional
sign, then leading digits; `none` models `NaN` (whose `===` match against
every itag fails, giving the same selection as no requested quality). -/
def parseIntLeading (s : String) : Option Nat :=
  let r := s.data.dropWhile (fun c => c == ' ' || c == '\t' || c == '\n' || c == '\r')
  let r := match r with
    | '+' :: rest => rest
    | rest => rest
  let ds := r.takeWhile Char.isDigit
  if ds.isEmpty then none
  else some (ds.foldl (fun acc c => acc * 10 + (c.toNat - 48)) 0)

/-- The filename built for a YouTube download (route.ts line 351):
`youtube-<urlHash>.<container || "mp4">`. -/
def youtubeFileName (urlHash : String) (container : Option String) : String :=
  "youtube-" ++ urlHash ++ "." ++
    (match container with
     | some c => if c.isEmpty then "mp4" else c
     | none => "mp4")

/-- The `youtube` branch (route.ts lines 254-400). -/
def youtubeBranch (u urlHash : String) (q : Option String) (w : World) :
    Resp × List Eff × List String :=
  if !w.ytValid u then
    (.errJson 500 "Failed to process YouTube video: Invalid YouTube URL", [], w.files)
  else
    match w.ytInfo u with
    | .error e => (.errJson 500 ("Failed to process YouTube video: " ++ e), [], w.files)
    | .ok info =>
      let qn : Option Nat :=
        match q with
        | none => none
        | some s => if s == "" then none else parseIntLeading s
      match selectFormat qn info.formats with
      | none =>
        (.errJson 500 "Failed to process YouTube video: No suitable format found", [], w.files)
      | some f =>
        let fileName := youtubeFileName urlHash f.container
        let contentType :=
          match f.mimeType with
          | some m => if m.isEmpty then "video/mp4" else m
          | none => "video/mp4"
        if w.ytStreamOk u then
          (.okJson ("/downloads/" ++ fileName) fileName contentType,
            [.ytStream u, .writeFile fileName], addFile fileName w.files)
        else
          (.errJson 500 "Failed to process YouTube video: stream error",
            [.ytStream u], w.files)

/-- The first `reel`/`post`/`profile` block (route.ts lines 402-436): it
requires the `media_url` parameter and fetches it unconditionally — it
performs no exists-check against the downloads directory. -/
def igMediaBranch (ty urlHash : String) (mu : Option String) (w : World) :
    Resp × List Eff × List String :=
  match mu with
  | none => (.errJson 400 "Missing media URL", [], w.files)
  | some m =>
    if m == "" then (.errJson 400 "Missing media URL", [], w.files)
    else
      let isVideo := strContains ".mp4" m
      let fileName := "instagram-" ++ ty ++ "-" ++ urlHash ++
        (if isVideo then ".mp4" else ".jpg")
      if w.mediaFetchOk m then
        (.okJson ("/downloads/" ++ fileName) fileName
           (if isVideo then "video/mp4" else "image/jpeg"),
         [.fetchMedia m, .writeFile fileName], addFile fileName w.files)
      else
        (.errJson 500 ("Failed to download Instagram " ++ ty),
         [.fetchMedia m], w.files)

/-- The unreachable duplicate `case "post":` block (route.ts lines
438-481): extract from the page, then exists-check, then download. -/
def igPostBranch (u urlHash : String) (w : World) : Resp × List Eff × List String :=
  let ext :=
    match w.igHtml u with
    | none => none
    | some html => extractInstagramMediaUrl w.jparse html "post"
  match ext with
  | none => (.errJson 500 "Could not extract Instagram post URL", [.fetchPage u], w.files)
  | some mu =>
    if mu == "" then
      (.errJson 500 "Could not extract Instagram post URL", [.fetchPage u], w.files)
    else
      let isVideo := strContains ".mp4" mu || strContains "/video/" mu
      let fileName := "instagram-post-" ++ urlHash ++ (if isVideo then ".mp4" else ".jpg")
      let ct := if isVideo then "video/mp4" else "image/jpeg"
      if w.files.contains fileName then
        (.okJson ("/downloads/" ++ fileName) fileName ct, [.fetchPage u], w.files)
      else if w.mediaFetchOk mu then
        (.okJson ("/downloads/" ++ fileName) fileName ct,
         [.fetchPage u, .fetchMedia mu, .writeFile fileName], addFile fileName w.files)
      else
        (.errJson 500 "Failed to download Instagram post",
         [.fetchPage u, .fetchMedia mu], w.files)

/-- The unreachable duplicate `case "profile":` block (route.ts lines
483-523): exists-check first, then extract and download. -/
def igProfileBranch (u urlHash : String) (w : World) : Resp × List Eff × List String :=
  let fileName := "instagram-profile-" ++ urlHash ++ ".jpg"
  if w.files.contains fileName then
    (.okJson ("/downloads/" ++ fileName) fileName "image/jpeg", [], w.files)
  else
    let ext :=
      match w.igHtml u with
      | none => none
      | some html => extractInstagramMediaUrl w.jparse html "profile"
    match ext with
    | none =>
      (.errJson 500 "Could not extract Instagram profile picture URL",
       [.fetchPage u], w.files)
    | some mu =>
      if mu == "" then
        (.errJson 500 "Could not extract Instagram profile picture URL",
         [.fetchPage u], w.files)
      else if w.mediaFetchOk mu then
        (.okJson ("/downloads/" ++ fileName) fileName "image/jpeg",
         [.fetchPage u, .fetchMedia mu, .writeFile fileName], addFile fileName w.files)
      else
        (.errJson 500 "Failed to download Instagram profile picture",
         [.fetchPage u, .fetchMedia mu], w.files)

/-- The `facebook` branch (route.ts lines 525-566): fetch the page, try
`hd_src`, `sd_src`, then `"playable_url"` (backslash-stripped), each under
the `i` flag, and redirect; on no match or any error, redirect to the
original URL. -/
def facebookBranch (u : String) (w : World) : Resp × List Eff × List String :=
  match w.pageHtml u with
  | none => (.redirect u, [.fetchPage u], w.files)
  | some html =>
    let s := html.data
    match simpleCaptureCi "hd_src:\"".data s with
    | some cap => (.redirect (String.mk cap), [.fetchPage u], w.files)
    | none =>
      match simpleCaptureCi "sd_src:\"".data s with
      | some cap => (.redirect (String.mk cap), [.fetchPage u], w.files)
      | none =>
        match simpleCaptureCi "\"playable_url\":\"".data s with
        | some cap => (.redirect (String.mk (stripBS cap)), [.fetchPage u], w.files)
        | none => (.redirect u, [.fetchPage u], w.files)

/-- `GET` of src/app/api/proxy/route.ts: parameter validation, then the
switch dispatch. -/
def routeGET (r : Req) (w : World) : Resp × List Eff × List String :=
  match r.url, r.ty with
  | some u, some ty =>
    if u == "" || ty == "" then (.errJson 400 "Missing URL or type", [], w.files)
    else
      let urlHash := w.hash u
      match switchBranch ty with
      | .youtube => youtubeBranch u urlHash r.quality w
      | .igMedia => igMediaBranch ty urlHash r.media_url w
      | .igPostX => igPostBranch u urlHash w
      | .igProfileX => igProfileBranch u urlHash w
      | .facebook => facebookBranch u w
      | .unsupported => (.errJson 400 "Unsupported content type", [], w.files)
  | _, _ => (.errJson 400 "Missing URL or type", [], w.files)

/-- A quiet world for closed instances: empty file store, every media
fetch succeeds, every page fetch fails, and a fixed digest value. -/
def demoWorld : World :=
  { hash := fun _ => "0a1b2c3d4e5f60718293a4b5c6d7e8f9",
    files := [],
    mediaFetchOk := fun _ => true,
    pageHtml := fun _ => none,
    igHtml := fun _ => none,
    jparse := fun _ => none,
    ytValid := fun _ => false,
    ytInfo := fun _ => .error "Could not get video information",
    ytStreamOk := fun _ => false }

/-- The C1 request: an Instagram post with a pre-resolved media URL. -/
def demoReq : Req :=
  { url := some "https://www.instagram.com/p/abc/",
    ty := some "post",
    quality := none,
    media_url := some "https://cdn.example.com/media.mp4" }

/-- The cache file name the C1 request writes. -/
def demoIgFile : String := "instagram-post-0a1b2c3d4e5f60718293a4b5c6d7e8f9.mp4"

/-- The claim's filename pattern `^my-video-1-hd-\d+\.mp4$` as a decidable
predicate (written from the spec's words, for comparison only). -/
def specFilenameMatch (s : String) : Bool :=
  let l := s.data
  "my-video-1-hd-".data.isPrefixOf l &&
  (let r := l.drop 14
   let ds := r.takeWhile Char.isDigit
   !ds.isEmpty && (r.drop ds.length == ".mp4".data))

/-! ## The cached YouTube download of the part_001/part_002 route variant
(`case "youtube"`, lines 137-282)

That variant writes the stream straight to the final cache path
`youtube-<hash>.mp4`; `createWriteStream` creates the file on open, a
stream/write error rejects the surrounding promise after some bytes were
flushed, and the `statSync` size check runs only when the download
completed.  Nothing ever unlinks the file. -/

/-- The cache slot for one URL hash: `none` = no file on disk, `some n` =
a file of `n` bytes exists at `youtube-<hash>.mp4`. -/
structure CacheState where
  fileSize : Option Nat
deriving DecidableEq

/-- Outcome of the piped download: completion with `bytes` flushed, or a
stream/write error after `written` bytes were flushed. -/
inductive StreamOutcome where
  | ok (bytes : Nat)
  | failed (written : Nat)
deriving DecidableEq

/-- Responses of the variant's youtube branch. -/
inductive YtResp where
  | cached
  | saved
  | err (msg : String)
deriving DecidableEq

/-- One request against the youtube branch: serve the path as complete
whenever the file exists; otherwise download, then fail the request when
the stream errored or `statSync` reports size 0 — leaving the file in
place in both failure cases. -/
def ytDownloadStep (st : CacheState) (out : StreamOutcome) : YtResp × CacheState :=
  match st.fileSize with
  | some _ => (.cached, st)
  | none =>
    match out with
    | .ok n =>
      if n = 0 then (.err "Download failed - file is empty", ⟨some 0⟩)
      else (.saved, ⟨some n⟩)
    | .failed k => (.err "stream error", ⟨some k⟩)

/-! ## The Facebook resolver of the part_002 route variant
(`case "facebook"`, lines 407-578)

The cookie priming, `watch?v=` URL rewrite and page fetch are upstream of
the extraction; the functions below take the fetched HTML.  The branch
runs an ordered pattern chain, a per-line GraphQL scan, and a script-tag
scan, then downloads the extracted URL — or, when everything failed,
throws the diagnostic error that the surrounding `catch` converts to a 500
JSON response.  (On the success path the `case` block lacks a `break` and
falls through into `default`, returning the 400 `Unsupported content
type` response — modelled faithfully below.) -/

/-- Pattern 5, `/"video":{[^}]*"url":"([^"]+)"/`: at each `"video":{`
occurrence (leftmost first), the greedy `[^}]*` picks the last `"url":"`
occurrence starting inside the brace-free run. -/
def videoCapture (s : List Char) : Option (List Char) :=
  (occIdx "\"video\":\x7b".data s).findSome? (fun i =>
    let r := s.drop (i + 9)
    let limit := (r.takeWhile (fun c => c != '\x7d')).length
    (((occIdx "\"url\":\"".data r).filter (fun j => j ≤ limit)).reverse).findSome?
      (fun j =>
        let r2 := r.drop (j + 7)
        let cap := r2.takeWhile (fun c => c != '"')
        if !cap.isEmpty && ((r2.drop cap.length).head? == some '"') then some cap
        else none))

/-- The eight `dataMatches` patterns in source order; each handler strips
backslashes, which `patternPass` applies. -/
def fbMatchers : List (List Char → Option (List Char)) :=
  [simpleCapture "\"playable_url_quality_hd\":\"".data,
   simpleCapture "\"playable_url\":\"".data,
   simpleCapture "\"browser_native_hd_url\":\"".data,
   simpleCapture "\"browser_native_sd_url\":\"".data,
   videoCapture,
   simpleCapture "\"hd_src\":\"".data,
   simpleCapture "\"sd_src\":\"".data,
   simpleCapture "\"contentUrl\":\"".data]

/-- The pattern loop (lines 505-511): the first pattern whose
backslash-stripped capture is truthy wins.  (A capture that strips to the
empty string leaves `videoUrl` falsy and the loop running, which is
observationally the same as no match.) -/
def patternPass (s : List Char) : Option (List Char) :=
  fbMatchers.findSome? (fun m =>
    match m s with
    | some cap =>
      let v := stripBS cap
      if v.isEmpty then none else some v
    | none => none)

/-- JS `split('\n')`. -/
def splitNl : List Char → List (List Char)
  | [] => [[]]
  | '\n' :: r => [] :: splitNl r
  | c :: r =>
    match splitNl r with
    | [] => [[c]]
    | h :: t => (c :: h) :: t

/-- `/"video":{"id":"([^"]+)".*?"playable_url":"([^"]+)"/i` applied to one
line: leftmost `"video":{"id":"` with a closed first capture, then the
earliest following `"playable_url":"` with a closed second capture (the
lazy `.*?`). -/
def graphqlMatch2 (ch : List Char) : Option (List Char) :=
  (occIdxCi "\"video\":\x7b\"id\":\"".data ch).findSome? (fun i =>
    let r := ch.drop (i + 15)
    let cap1 := r.takeWhile (fun c => c != '"')
    if cap1.isEmpty then none
    else
      match r.drop cap1.length with
      | '"' :: r2 =>
        (occIdxCi "\"playable_url\":\"".data r2).findSome? (fun j =>
          let r3 := r2.drop (j + 16)
          let cap2 := r3.takeWhile (fun c => c != '"')
          if !cap2.isEmpty && ((r3.drop cap2.length).head? == some '"') then some cap2
          else none)
      | _ => none)

/-- The GraphQL chunk scan (lines 514-526): the first line containing both
markers and matching the regex determines `videoUrl` (stripped, possibly
empty — the loop breaks regardless). -/
def chunkPass (s : List Char) : Option (List Char) :=
  (splitNl s).findSome? (fun ch =>
    if containsSub "\"video\"".data ch && containsSub "\"playable_url\"".data ch then
      (graphqlMatch2 ch).map stripBS
    else none)

/-- Successive non-overlapping matches of `/<script[^>]*>([\s\S]*?)<\/script>/gi`
(whole matched substrings, tags included), by fuel-bounded scanning. -/
def scriptBlocksAux : Nat → List Char → List (List Char)
  | 0, _ => []
  | fu + 1, s =>
    match s with
    | [] => []
    | _ :: rest =>
      if ciPrefixOf "<script".data s then
        let afterTag := s.drop 7
        let attrs := afterTag.takeWhile (fun c => c != '>')
        match afterTag.drop attrs.length with
        | '>' :: body =>
          match beforeFirstCi "</script>".data body with
          | some inner =>
            let matchLen := 7 + attrs.length + 1 + inner.length + 9
            s.take matchLen :: scriptBlocksAux fu (s.drop matchLen)
          | none => scriptBlocksAux fu rest
        | _ => scriptBlocksAux fu rest
      else scriptBlocksAux fu rest

/-- All script blocks of the page. -/
def scriptBlocks (s : List Char) : List (List Char) :=
  scriptBlocksAux (s.length + 1) s

/-- The script-tag scan (lines 529-540): the first block containing
`"playable_url"` whose case-insensitive capture matches determines
`videoUrl` (stripped, possibly empty — the loop breaks regardless). -/
def scriptPass (s : List Char) : Option (List Char) :=
  (scriptBlocks s).findSome? (fun sc =>
    if containsSub "\"playable_url\"".data sc then
      (simpleCaptureCi "\"playable_url\":\"".data sc).map stripBS
    else none)

/-- The `videoUrl` variable after the three passes: each later pass runs
only while `videoUrl` is falsy. -/
def fbVideoUrl (s : List Char) : Option (List Char) :=
  match patternPass s with
  | some v => some v
  | none =>
    match chunkPass s with
    | some c =>
      if c.isEmpty then
        match scriptPass s with
        | some d => some d
        | none => some c
      else some c
    | none => scriptPass s

/-- The final `if (videoUrl)` truthiness test over the whole chain. -/
def fbVideoUrlFinal (html : String) : Option String :=
  match fbVideoUrl html.data with
  | some v => if v.isEmpty then none else some (String.mk v)
  | none => none

/-- The diagnostic thrown when extraction fails (lines 559-569), which the
`catch` serves as the 500 JSON error message. -/
def fbDiagMsg : String :=
  "Could not access the Facebook video. This could be because:\n1. The video is private\n2. The video requires login\n3. The video has age restrictions\n4. The video URL is invalid or has expired\n\nPlease make sure:\n- The video is public\n- You\x27re using a direct link to the video post\n- The video hasn\x27t been deleted"

/-- Effects of the facebook branch (media downloads only; the cookie
priming and page fetch precede extraction and fetch no media). -/
inductive FbEff where
  | fetchMedia (u : String)
deriving DecidableEq

/-- Responses of the facebook branch.  `unsupported400` is the result of
the success path falling through the missing `break` into `default`. -/
inductive FbResp2 where
  | errJson (status : Nat) (msg : String)
  | unsupported400
deriving DecidableEq

/-- The facebook branch after the page fetch (lines 462-578): on an
extracted URL, download unless the cache file exists (then fall through to
`default`); otherwise throw the diagnostic, caught as a 500 JSON error. -/
def fbHandle (html : String) (fileExists dlOk : Bool) : FbResp2 × List FbEff :=
  match fbVideoUrlFinal html with
  | none => (.errJson 500 fbDiagMsg, [])
  | some u =>
    if fileExists then (.unsupported400, [])
    else if dlOk then (.unsupported400, [.fetchMedia u])
    else (.errJson 500 "Failed to download Facebook video", [.fetchMedia u])

/-- A page with no extractable video, for the C2 witness. -/
def fbHtml0 : String := "<html><body>no media at all</body></html>"

/-! ## Theorems -/

/-- C6: `extractYouTubeVideoId` returns, for every input URL, either null or
a string of exactly 11 characters; it returns `dQw4w9WgXcQ` for
`https://www.youtube.com/watch?v=dQw4w9WgXcQ` and null for
`https://youtube.com/watch?v=short`. -/
theorem c6_extract_video_id :
    (∀ url : String, extractYouTubeVideoId url = none ∨
      ∃ s, extractYouTubeVideoId url = some s ∧ s.length = 11)
    ∧ extractYouTubeVideoId "https://www.youtube.com/watch?v=dQw4w9WgXcQ" = some "dQw4w9WgXcQ"
    ∧ extractYouTubeVideoId "https://youtube.com/watch?v=short" = none := by
  refine ⟨fun url => ?_, by decide, by decide⟩
  unfold extractYouTubeVideoId
  cases h : captureSeven url.data with
  | none => exact Or.inl rfl
  | some cs =>
    by_cases h11 : cs.length = 11
    · refine Or.inr ⟨String.mk cs, ?_, ?_⟩
      · simp [h11]
      · simpa [String.length] using h11
    · simp [h11]

/-- Witness for C6 (instantiates the second conjunct). -/
theorem c6_witness :
    extractYouTubeVideoId "https://www.youtube.com/watch?v=dQw4w9WgXcQ" = some "dQw4w9WgXcQ" :=
  c6_extract_video_id.2.1

/-- C7: every non-empty URL containing none of the substrings `youtube.com`,
`youtu.be`, `instagram.com`, `facebook.com`, `fb.com` makes
`downloadContent` return the unsupported-platform failure result without
invoking any platform handler. -/
theorem c7_unsupported_platform :
    ∀ url : String, url ≠ "" →
      strContains "youtube.com" url = false →
      strContains "youtu.be" url = false →
      strContains "instagram.com" url = false →
      strContains "facebook.com" url = false →
      strContains "fb.com" url = false →
      downloadContent url =
        .inl ⟨false, "Unsupported URL. Please try a YouTube, Instagram, or Facebook URL."⟩ := by
  intro url hne h1 h2 h3 h4 h5
  unfold downloadContent
  have hu : (url == "") = false := beq_eq_false_iff_ne.mpr hne
  simp [hu, h1, h2, h3, h4, h5]

/-- Witness for C7 at the concrete URL `https://example.com/a`. -/
theorem c7_witness :
    downloadContent "https://example.com/a" =
      .inl ⟨false, "Unsupported URL. Please try a YouTube, Instagram, or Facebook URL."⟩ :=
  c7_unsupported_platform "https://example.com/a" (by decide) (by decide) (by decide)
    (by decide) (by decide) (by decide)

/-- C3 counterexample: `igHtml3` contains a valid `og:image` meta tag and no
`window._sharedData` or JSON-LD script block, yet `extractInstagramMediaUrl`
returns `none` for both Post and Profile — the claimed third (meta-tag)
fallback step does not exist in the code. -/
theorem c3_counterexample :
    specOgImage igHtml3 = some "https://cdn.example.com/pic.jpg"
    ∧ sharedCapture igHtml3.data = none
    ∧ ldCapture igHtml3.data = none
    ∧ extractInstagramMediaUrl jsonParse igHtml3 "post" = none
    ∧ extractInstagramMediaUrl jsonParse igHtml3 "profile" = none := by
  refine ⟨by decide, by decide, by decide, by decide, by decide⟩

/-- C3 amended: for every page HTML with no `window._sharedData` script
block and no JSON-LD script block, `extractInstagramMediaUrl` returns
`none` for every subKind and every JSON parser — even when the HTML
contains a valid `og:image` meta tag; the resolver has no meta-tag
fallback step. -/
theorem c3_no_meta_fallback :
    ∀ (parse : String → Option Json) (html ty : String),
      sharedCapture html.data = none →
      ldCapture html.data = none →
      extractInstagramMediaUrl parse html ty = none := by
  intro parse html ty h1 h2
  unfold extractInstagramMediaUrl sharedStep ldStep
  rw [h1, h2]
  rfl

/-- Witness for C3 (amended theorem applied at `igHtml3`). -/
theorem c3_witness : extractInstagramMediaUrl jsonParse igHtml3 "post" = none :=
  c3_no_meta_fallback jsonParse igHtml3 "post" (by decide) (by decide)

/-- C5 counterexample: in `igHtml5` the `window._sharedData` block captures
the malformed payload `@@` (so `JSON.parse` throws) while the JSON-LD step
alone would return the video URL — yet the extraction returns `none`: the
step-1 parse error escapes to the function-wide catch and the chain does
NOT continue. -/
theorem c5_counterexample :
    sharedCapture igHtml5.data = some ['@', '@']
    ∧ jsonParse "@@" = none
    ∧ ldStep jsonParse igHtml5 = .ret (some "https://v.example.com/a.mp4")
    ∧ extractInstagramMediaUrl jsonParse igHtml5 "reel" = none := by
  refine ⟨by decide, by rfl, by decide, by decide⟩

/-- C5 amended: `extractInstagramMediaUrl` never throws (every error path
returns `none`), and the JSON-LD step's failures are soft (when no
`window._sharedData` block matches, the result is exactly the JSON-LD
step's outcome, `none` on its parse errors); but a `JSON.parse` error in
the `window._sharedData` step aborts the whole extraction with `none`
without attempting the JSON-LD step, and there is no meta-tag step. -/
theorem c5_soft_fail_chain :
    (∀ (parse : String → Option Json) (html ty : String) (c : List Char),
      sharedCapture html.data = some c →
      parse (String.mk c) = none →
      extractInstagramMediaUrl parse html ty = none)
    ∧ (∀ (parse : String → Option Json) (html ty : String),
      sharedCapture html.data = none →
      extractInstagramMediaUrl parse html ty = stepValue (ldStep parse html)) := by
  constructor
  · intro parse html ty c h1 h2
    unfold extractInstagramMediaUrl sharedStep
    simp [h1, h2]
  · intro parse html ty h1
    unfold extractInstagramMediaUrl sharedStep
    simp [h1]

/-- Witness for C5 (first conjunct applied at `igHtml5`). -/
theorem c5_witness : extractInstagramMediaUrl jsonParse igHtml5 "reel" = none :=
  c5_soft_fail_chain.1 jsonParse igHtml5 "reel" ['@', '@'] (by decide) (by rfl)

theorem audioVal_bool (f : Fmt) (h1 : f.audioQuality = none) (h2 : f.audioBitrate = none) :
    audioVal f = if f.hasAudio then JSV.b true else JSV.undef := by
  cases hf : f.hasAudio <;>
    simp [audioVal, h1, h2, jsOrV, jsvTruthy, optStrJSV, optNatJSV, hf]

/-- Under absent `audioQuality`/`audioBitrate`, the source comparator
agrees with the claim's lexicographic ordering. -/
theorem ytLe_iff_spec (a b : Fmt)
    (ha1 : a.audioQuality = none) (ha2 : a.audioBitrate = none)
    (hb1 : b.audioQuality = none) (hb2 : b.audioBitrate = none) :
    (ytLeB a b = true) ↔ (specBetterEq a b = true) := by
  have hA := audioVal_bool a ha1 ha2
  have hB := audioVal_bool b hb1 hb2
  unfold ytLeB ytCmp specBetterEq tripLe lexKey carriesAudio hasContainerB
  rw [hA, hB]
  cases haa : a.hasAudio <;> cases hbb : b.hasAudio <;>
    by_cases hq : getQualityNumber a = getQualityNumber b <;>
      cases hca : optStrTruthy a.container <;> cases hcb : optStrTruthy b.container <;>
        simp [hq, jsvTruthy] <;> omega

/-- The claim's ordering is total. -/
theorem tripLe_total (x y : Nat × Bool × Bool) : tripLe x y = true ∨ tripLe y x = true := by
  obtain ⟨q1, a1, c1⟩ := x
  obtain ⟨q2, a2, c2⟩ := y
  cases a1 <;> cases a2 <;> cases c1 <;> cases c2 <;> simp [tripLe] <;> omega

/-- The claim's ordering is transitive. -/
theorem tripLe_trans (x y z : Nat × Bool × Bool)
    (h1 : tripLe x y = true) (h2 : tripLe y z = true) : tripLe x z = true := by
  obtain ⟨q1, a1, c1⟩ := x
  obtain ⟨q2, a2, c2⟩ := y
  obtain ⟨q3, a3, c3⟩ := z
  cases a1 <;> cases a2 <;> cases a3 <;> cases c1 <;> cases c2 <;> cases c3 <;>
    simp_all [tripLe] <;> omega

/-- The head of `sortLe` is a minimum when the comparator is a total
preorder on the list's elements. -/
theorem sortLe_head_min {α : Type} (le : α → α → Bool) :
    ∀ l : List α,
      (∀ x ∈ l, ∀ y ∈ l, le x y = true ∨ le y x = true) →
      (∀ x ∈ l, ∀ y ∈ l, ∀ z ∈ l, le x y = true → le y z = true → le x z = true) →
      l ≠ [] →
      ∃ h t, sortLe le l = h :: t ∧ h ∈ l ∧ ∀ z ∈ l, le h z = true := by
  intro l
  induction l with
  | nil => intro _ _ hne; exact absurd rfl hne
  | cons x xs ih =>
    intro htot htr _
    by_cases hxs : xs = []
    · subst hxs
      refine ⟨x, [], rfl, List.mem_cons_self x [], ?_⟩
      intro z hz
      rcases List.mem_singleton.mp hz with rfl
      rcases htot z (List.mem_cons_self z []) z (List.mem_cons_self z []) with h | h <;> exact h
    · have htot' : ∀ a ∈ xs, ∀ b ∈ xs, le a b = true ∨ le b a = true :=
        fun a ha b hb => htot a (List.mem_cons_of_mem x ha) b (List.mem_cons_of_mem x hb)
      have htr' : ∀ a ∈ xs, ∀ b ∈ xs, ∀ c ∈ xs,
          le a b = true → le b c = true → le a c = true :=
        fun a ha b hb c hc => htr a (List.mem_cons_of_mem x ha)
          b (List.mem_cons_of_mem x hb) c (List.mem_cons_of_mem x hc)
      obtain ⟨h, t, hs, hmem, hmin⟩ := ih htot' htr' hxs
      have hxx : le x x = true := by
        rcases htot x (List.mem_cons_self x xs) x (List.mem_cons_self x xs) with h' | h' <;>
          exact h'
      have hsort : sortLe le (x :: xs) = insertLe le x (h :: t) := by
        simp [sortLe, hs]
      by_cases hle : le x h = true
      · refine ⟨x, h :: t, ?_, List.mem_cons_self x xs, ?_⟩
        · rw [hsort]; simp [insertLe, hle]
        · intro z hz
          rcases List.mem_cons.mp hz with rfl | hz'
          · exact hxx
          · exact htr x (List.mem_cons_self x xs) h (List.mem_cons_of_mem x hmem)
              z (List.mem_cons_of_mem x hz') hle (hmin z hz')
      · refine ⟨h, insertLe le x t, ?_, List.mem_cons_of_mem x hmem, ?_⟩
        · rw [hsort]; simp [insertLe, hle]
        · intro z hz
          rcases List.mem_cons.mp hz with rfl | hz'
          · rcases htot z (List.mem_cons_self z xs) h (List.mem_cons_of_mem z hmem) with h' | h'
            · exact absurd h' hle
            · exact h'
          · exact hmin z hz'

/-- C4: with no requested quality (or no exact itag match), the selected
format is minimal under the ordering: descending quality number, then
audio carriers first, then explicit containers first (stated for format
lists whose audio presence is carried by the boolean `hasAudio` field, as
`ytdl-core` produces — otherwise the JS comparator is inconsistent and the
engine's sort order is unspecified); in particular, on
`[{height:720, hasAudio:false}, {height:720, hasAudio:true},
{height:480, hasAudio:true}]` the 720p variant with audio is selected. -/
theorem c4_variant_selection :
    (∀ (fmts : List Fmt) (q : Option Nat),
      videoFormats fmts ≠ [] →
      (∀ f ∈ fmts, f.audioQuality = none ∧ f.audioBitrate = none) →
      (q = none ∨ ∃ n, q = some n ∧
        (videoFormats fmts).find? (fun f => f.itag == n) = none) →
      ∃ s, selectFormat q fmts = some s ∧ s ∈ videoFormats fmts ∧
        ∀ f ∈ videoFormats fmts, specBetterEq s f = true)
    ∧ selectFormat none demoFmts = some fmt720A := by
  constructor
  · intro fmts q hne hAu hq
    have hsub : ∀ f ∈ videoFormats fmts, f ∈ fmts := by
      intro f hf; exact (List.mem_filter.mp hf).1
    have htot : ∀ x ∈ videoFormats fmts, ∀ y ∈ videoFormats fmts,
        ytLeB x y = true ∨ ytLeB y x = true := by
      intro x hx y hy
      obtain ⟨hx1, hx2⟩ := hAu x (hsub x hx)
      obtain ⟨hy1, hy2⟩ := hAu y (hsub y hy)
      rcases tripLe_total (lexKey x) (lexKey y) with h | h
      · exact Or.inl ((ytLe_iff_spec x y hx1 hx2 hy1 hy2).mpr h)
      · exact Or.inr ((ytLe_iff_spec y x hy1 hy2 hx1 hx2).mpr h)
    have htr : ∀ x ∈ videoFormats fmts, ∀ y ∈ videoFormats fmts,
        ∀ z ∈ videoFormats fmts,
        ytLeB x y = true → ytLeB y z = true → ytLeB x z = true := by
      intro x hx y hy z hz h1 h2
      obtain ⟨hx1, hx2⟩ := hAu x (hsub x hx)
      obtain ⟨hy1, hy2⟩ := hAu y (hsub y hy)
      obtain ⟨hz1, hz2⟩ := hAu z (hsub z hz)
      exact (ytLe_iff_spec x z hx1 hx2 hz1 hz2).mpr
        (tripLe_trans _ _ _ ((ytLe_iff_spec x y hx1 hx2 hy1 hy2).mp h1)
          ((ytLe_iff_spec y z hy1 hy2 hz1 hz2).mp h2))
    obtain ⟨h, t, hs, hmem, hmin⟩ := sortLe_head_min ytLeB (videoFormats fmts) htot htr hne
    have hsel : selectFormat q fmts = (sortLe ytLeB (videoFormats fmts)).head? := by
      rcases hq with rfl | ⟨n, rfl, hfind⟩
      · rfl
      · simp [selectFormat, hfind]
    refine ⟨h, ?_, hmem, ?_⟩
    · rw [hsel, hs]; rfl
    · intro f hf
      obtain ⟨h1, h2⟩ := hAu h (hsub h hmem)
      obtain ⟨f1, f2⟩ := hAu f (hsub f hf)
      exact (ytLe_iff_spec h f h1 h2 f1 f2).mp (hmin f hf)
  · decide

/-- Witness for C4 (general part applied to the claim's example list). -/
theorem c4_witness :
    ∃ s, selectFormat none demoFmts = some s ∧ s ∈ videoFormats demoFmts ∧
      ∀ f ∈ videoFormats demoFmts, specBetterEq s f = true :=
  c4_variant_selection.1 demoFmts none (by decide) (by decide) (Or.inl rfl)

/-- C1: evaluation at the failing input.  With an empty file store, the
first request for an Instagram post (with its `media_url`) fetches the
media and writes `instagram-post-<hash>.mp4`; a second identical request —
with the file now present — performs the upstream media fetch and the
write again: the live `reel`/`post`/`profile` block has no exists-check
(the skip-if-exists logic sits only in the shadowed duplicate `case`
blocks), so cached requests are re-fetched. -/
theorem c1_second_request_refetches :
    (routeGET demoReq demoWorld).2.1 =
      [.fetchMedia "https://cdn.example.com/media.mp4", .writeFile demoIgFile]
    ∧ (routeGET demoReq demoWorld).2.2 = [demoIgFile]
    ∧ (routeGET demoReq { demoWorld with files := [demoIgFile] }).2.1 =
      [.fetchMedia "https://cdn.example.com/media.mp4", .writeFile demoIgFile] := by
  refine ⟨by decide, by decide, by decide⟩

/-- C9 counterexample: for the concrete request URL
`https://www.youtube.com/watch?v=dQw4w9WgXcQ` (md5
`75170fc230cd88f32e475ff4087f81d9`), title `My Video! #1 (HD)` and
container `mp4`, the route's filename is `youtube-<hash>.mp4`, which does
not match the claimed pattern `^my-video-1-hd-\d+\.mp4$`; the title never
enters the filename (route.ts line 351 builds it from the URL hash). -/
theorem c9_counterexample :
    youtubeFileName "75170fc230cd88f32e475ff4087f81d9" (some "mp4") =
      "youtube-75170fc230cd88f32e475ff4087f81d9.mp4"
    ∧ specFilenameMatch
        (youtubeFileName "75170fc230cd88f32e475ff4087f81d9" (some "mp4")) = false := by
  refine ⟨by decide, by decide⟩

/-- C9 amended: the filename attached to a delivered YouTube video is
`youtube-<md5(url)>.<container || "mp4">` — a URL-hash name, independent
of the title — and for every hash and container it fails the claimed
sanitized-title pattern. -/
theorem c9_hash_filename :
    ∀ (h : String) (c : Option String),
      (youtubeFileName h c).data =
        "youtube-".data ++ h.data ++ ".".data ++
          (match c with
           | some s => if s.isEmpty then "mp4" else s
           | none => "mp4").data
      ∧ specFilenameMatch (youtubeFileName h c) = false := by
  intro h c
  have hdata : (youtubeFileName h c).data =
      "youtube-".data ++ h.data ++ ".".data ++
        (match c with
         | some s => if s.isEmpty then "mp4" else s
         | none => "mp4").data := by
    cases c with
    | none => rfl
    | some s => rfl
  refine ⟨hdata, ?_⟩
  unfold specFilenameMatch
  rw [hdata]
  rfl

/-- Witness for C9 (amended theorem at the concrete hash and container). -/
theorem c9_witness :
    specFilenameMatch
      (youtubeFileName "75170fc230cd88f32e475ff4087f81d9" (some "mp4")) = false :=
  (c9_hash_filename "75170fc230cd88f32e475ff4087f81d9" (some "mp4")).2

/-- C10: a `reel`/`post`/`profile` request without `media_url` returns the
400 `Missing media URL` JSON with no fetch and no write, and the duplicate
`case "post"`/`case "profile"` blocks can never be selected for any
discriminant. -/
theorem c10_missing_media_url :
    (∀ (r : Req) (w : World) (u ty : String),
      r.url = some u → u ≠ "" → r.ty = some ty →
      (ty = "reel" ∨ ty = "post" ∨ ty = "profile") →
      r.media_url = none →
      routeGET r w = (.errJson 400 "Missing media URL", [], w.files))
    ∧ (∀ ty : String, switchBranch ty ≠ .igPostX ∧ switchBranch ty ≠ .igProfileX) := by
  constructor
  · intro r w u ty hu hne hty hcase hmu
    have hue : (u == "") = false := beq_eq_false_iff_ne.mpr hne
    rcases hcase with rfl | rfl | rfl <;>
      simp [routeGET, hu, hty, hue, switchBranch, switchCases, igMediaBranch, hmu]
  · intro ty
    unfold switchBranch switchCases
    by_cases h1 : ty = "youtube"
    · subst h1; exact ⟨by decide, by decide⟩
    · by_cases h2 : ty = "reel"
      · subst h2; exact ⟨by decide, by decide⟩
      · by_cases h3 : ty = "post"
        · subst h3; exact ⟨by decide, by decide⟩
        · by_cases h4 : ty = "profile"
          · subst h4; exact ⟨by decide, by decide⟩
          · by_cases h5 : ty = "facebook"
            · subst h5; exact ⟨by decide, by decide⟩
            · have e1 : (("youtube" : String) == ty) = false :=
                beq_eq_false_iff_ne.mpr (fun h => h1 h.symm)
              have e2 : (("reel" : String) == ty) = false :=
                beq_eq_false_iff_ne.mpr (fun h => h2 h.symm)
              have e3 : (("post" : String) == ty) = false :=
                beq_eq_false_iff_ne.mpr (fun h => h3 h.symm)
              have e4 : (("profile" : String) == ty) = false :=
                beq_eq_false_iff_ne.mpr (fun h => h4 h.symm)
              have e5 : (("facebook" : String) == ty) = false :=
                beq_eq_false_iff_ne.mpr (fun h => h5 h.symm)
              simp [List.find?, e1, e2, e3, e4, e5]

/-- Witness for C10 (a `reel` request with no `media_url`). -/
theorem c10_witness :
    routeGET { url := some "https://www.instagram.com/reel/xyz/", ty := some "reel",
               quality := none, media_url := none } demoWorld =
      (.errJson 400 "Missing media URL", [], []) :=
  c10_missing_media_url.1 _ demoWorld "https://www.instagram.com/reel/xyz/" "reel"
    rfl (by decide) rfl (Or.inl rfl) rfl

/-- C8: evaluation at the failing input.  A first request whose stream
fails after 5 bytes (or completes with an empty file) returns an error but
leaves the file at the cache path; a second request for the same url finds
the file via `existsSync` and serves it as complete — the non-zero size
check does not protect later requests, contradicting the claim that no
usable cache entry remains. -/
theorem c8_partial_file_served :
    ytDownloadStep ⟨none⟩ (.failed 5) = (.err "stream error", ⟨some 5⟩)
    ∧ (ytDownloadStep ⟨some 5⟩ (.ok 100)).1 = .cached
    ∧ ytDownloadStep ⟨none⟩ (.ok 0) = (.err "Download failed - file is empty", ⟨some 0⟩)
    ∧ (ytDownloadStep ⟨some 0⟩ (.ok 100)).1 = .cached := by
  refine ⟨rfl, rfl, rfl, rfl⟩

/-- C2: when none of the fallback extraction patterns (the eight-pattern
chain, the GraphQL line scan, and the script-tag scan) matches the fetched
HTML, the facebook branch answers the 500 JSON error carrying the
diagnostic message — which enumerates the private / login / age-restricted
/ deleted / invalid-link causes — and fetches no media URL. -/
theorem c2_facebook_unavailable :
    (∀ (html : String) (fileExists dlOk : Bool),
      patternPass html.data = none →
      chunkPass html.data = none →
      scriptPass html.data = none →
      fbHandle html fileExists dlOk = (.errJson 500 fbDiagMsg, []))
    ∧ strContains "private" fbDiagMsg = true
    ∧ strContains "requires login" fbDiagMsg = true
    ∧ strContains "age restrictions" fbDiagMsg = true
    ∧ strContains "deleted" fbDiagMsg = true
    ∧ strContains "invalid" fbDiagMsg = true := by
  refine ⟨?_, by decide, by decide, by decide, by decide, by decide⟩
  intro html fileExists dlOk h1 h2 h3
  unfold fbHandle fbVideoUrlFinal fbVideoUrl
  rw [h1, h2, h3]

/-- Witness for C2 (the pattern-free page `fbHtml0`). -/
theorem c2_witness : fbHandle fbHtml0 false true = (.errJson 500 fbDiagMsg, []) :=
  c2_facebook_unavailable.1 fbHtml0 false true (by decide) (by decide) (by decide)
